import Mathlib

/-!
# Message construction and response parsing of the `oracle` chat-completion client

A shallow embedding of the three message builders (`client.MessageFromPrompt`,
`openai.MessageFromPrompt`, `anthropic.createAnthropicMessages`), of the strategy selection in
`openai.Do`, and of the two response parsers (`client.ParseResponse`,
`anthropic.parseAnthropicResponse`), followed by theorems about them.

Conventions of the embedding:

* a Go `string` and a Go `[]byte` are both a list of bytes, so the conversions `string(b)` and
  `[]byte(s)` are the identity;
* a Go `error` is modelled by its `Error()` text;
* a run-time panic (index out of range) is the value `none`;
* a `for i, x := range xs` loop is the recursion `Go.forRange` over the slice, threading the
  loop-carried variables as a state;
* functions of the Go standard library or of files outside the modelled sources that inspect
  image data or decode JSON (`image.Decode`, `isPNG`, `ConvertPNGToDataURI`, `json.Decoder`) are
  parameters of the definitions that call them.
-/

set_option autoImplicit false

/-! ## Go prelude -/

namespace Go

/-- A Go `string` or `[]byte`: a sequence of bytes. -/
abbrev GoString := List UInt8

/-- A Go string literal: the UTF-8 bytes of the source text. -/
def str (s : String) : GoString := s.toUTF8.data.toList

/-- A Go `error` value, represented by the text its `Error()` method returns. -/
abbrev error := GoString

/-- The `%d` verb of `fmt` applied to a non-negative `int`. -/
def fmtNat (n : Nat) : GoString := str (Nat.repr n)

/-- The `%d` verb of `fmt` applied to an `int`. -/
def fmtInt : Int → GoString
  | Int.ofNat n => fmtNat n
  | Int.negSucc n => str "-" ++ fmtNat (n + 1)

/-- The loop `for i, x := range xs { s = body i x s }` started at index `i`; a body that
panics (`none`) aborts the loop. -/
def forRange {α σ : Type} (body : Nat → α → σ → Option σ) : List α → Nat → σ → Option σ
  | [], _, s => some s
  | x :: xs, i, s =>
    match body i x s with
    | none => none
    | some s1 => forRange body xs (i + 1) s1

/-- The list written by a loop whose `i`-th iteration appends `g i x`: used to describe the
result of `forRange` for append-only bodies. -/
def emit {α μ : Type} (g : Nat → α → List μ) : List α → Nat → List μ
  | [], _ => []
  | x :: xs, i => g i x ++ emit g xs (i + 1)

/-- An `io.Reader` seen through `io.ReadAll`: the bytes it yields before it stops, and the
error it stops with (`none` when it stops at end of input). -/
structure Reader where
  data : GoString
  err : Option error
  deriving DecidableEq, Repr

/-- The function `io.ReadAll`: the bytes read until end of input or the first error, and that
error. -/
def ReadAll (r : Reader) : GoString × Option error := (r.data, r.err)

/-- The alphabet of `base64.StdEncoding`. -/
def encodeStd : GoString :=
  str "ABCDEFGHIJKLMNOPQRSTUVWXYZabcdefghijklmnopqrstuvwxyz0123456789+/"

/-- The character of the standard alphabet for a 6-bit value. -/
def b64Char (v : Nat) : UInt8 := encodeStd.getD (v % 64) 61

/-- The function `base64.StdEncoding.EncodeToString`: three bytes become four characters, and a
final group of one or two bytes is padded with `=`. -/
def EncodeToString : GoString → GoString
  | a :: b :: c :: rest =>
    let v := a.toNat * 65536 + b.toNat * 256 + c.toNat
    [b64Char (v / 262144), b64Char (v / 4096), b64Char (v / 64), b64Char v]
      ++ EncodeToString rest
  | [a, b] =>
    let v := a.toNat * 65536 + b.toNat * 256
    [b64Char (v / 262144), b64Char (v / 4096), b64Char (v / 64), 61]
  | [a] =>
    let v := a.toNat * 65536
    [b64Char (v / 262144), b64Char (v / 4096), 61, 61]
  | [] => []

end Go

open Go

/-! ## Package `client` (chatgpt.go, verbiage.go) -/

namespace client

def RoleSystem : GoString := str "system"
def RoleUser : GoString := str "user"
def RoleAssistant : GoString := str "assistant"

/-- The interface `Prompt`, given by the values its four getters return. -/
structure Prompt where
  GetPurpose : GoString
  GetHistory : List GoString × List GoString
  GetQuestion : GoString
  GetReferences : List Reader

structure Message where
  Role : GoString
  Content : GoString
  deriving DecidableEq, Repr

/-- The body of the history loop of `MessageFromPrompt`: `idealOutputs[i]` panics when the
second history slice is shorter than the first. -/
def MessageFromPrompt.history (idealOutputs : List GoString) (i : Nat) (givenInput : GoString)
    (messages : List Message) : Option (List Message) :=
  let messages := messages ++ [{ Role := RoleUser, Content := givenInput }]
  match idealOutputs[i]? with
  | none => none
  | some idealOutput => some (messages ++ [{ Role := RoleAssistant, Content := idealOutput }])

/-- The body of the reference loop of `MessageFromPrompt`. -/
def MessageFromPrompt.reference (i : Nat) (reference : Reader) (messages : List Message) :
    Option (List Message) :=
  let i := i + 1
  let (contents, err) := ReadAll reference
  let contents :=
    match err with
    | some e => str "Error reading reference: " ++ e
    | none => contents
  some (messages ++
    [{ Role := RoleUser, Content := str "Reference " ++ fmtNat i ++ str ": " ++ contents }])

def MessageFromPrompt (prompt : Prompt) : Option (List Message) :=
  let messages : List Message := []
  let messages := messages ++ [{ Role := RoleSystem, Content := prompt.GetPurpose }]
  let givenInputs := prompt.GetHistory.1
  let idealOutputs := prompt.GetHistory.2
  match forRange (MessageFromPrompt.history idealOutputs) givenInputs 0 messages with
  | none => none
  | some messages =>
    let messages := messages ++ [{ Role := RoleUser, Content := prompt.GetQuestion }]
    forRange MessageFromPrompt.reference prompt.GetReferences 0 messages

structure Choice where
  Message : Message
  deriving DecidableEq, Repr

structure ChatCompletionResponse where
  Choices : List Choice
  deriving DecidableEq, Repr

/-- The function `ParseResponse`; `decode` stands for `json.NewDecoder(r).Decode(&resp)` on the
bytes of the reader `r`. -/
def ParseResponse (decode : GoString → Except error ChatCompletionResponse) (r : GoString) :
    Except error GoString :=
  match decode r with
  | Except.error err => Except.error err
  | Except.ok resp =>
    if h : resp.Choices.length < 1 then
      Except.error (str "no choices returned")
    else
      Except.ok (resp.Choices.get ⟨0, by omega⟩).Message.Content

end client

/-! ## Package `openai` (messages.go) -/

namespace openai

def RoleUser : GoString := str "user"
def RoleAssistant : GoString := str "assistant"
def RoleSystem : GoString := str "system"

/-- The interface `Prompt`, given by the values its five getters return. -/
structure Prompt where
  GetPurpose : GoString
  GetHistory : List GoString × List GoString
  GetQuestion : GoString
  GetReferences : List GoString
  GetResponseFormat : List GoString

structure TextMessage where
  Role : GoString
  Content : GoString
  deriving DecidableEq, Repr

/-- The anonymous struct type of the field `ImageURL`. (The Go field `Type` of the structures
below is written `Type_`.) -/
structure ImageURL where
  URL : GoString
  deriving DecidableEq, Repr

structure VisionImageURL where
  Type_ : GoString
  ImageURL : ImageURL
  deriving DecidableEq, Repr

/-- The struct `VisionMessage`, with the two fields the composite literal in
`MessageFromPrompt` sets. -/
structure VisionMessage where
  Role : GoString
  Content : List VisionImageURL
  deriving DecidableEq, Repr

/-- The interface `Message`, with its two implementations. -/
inductive Message where
  | text (m : TextMessage)
  | vision (m : VisionMessage)
  deriving DecidableEq, Repr

/-- The body of the history loop of `MessageFromPrompt`. -/
def MessageFromPrompt.history (idealOutputs : List GoString) (i : Nat) (givenInput : GoString)
    (messages : List Message) : Option (List Message) :=
  let messages := messages ++ [Message.text { Role := RoleUser, Content := givenInput }]
  match idealOutputs[i]? with
  | none => none
  | some idealOutput =>
    some (messages ++ [Message.text { Role := RoleAssistant, Content := idealOutput }])

/-- The body of the reference loop of `MessageFromPrompt`; `isPNG` and `ConvertPNGToDataURI`
are the two helpers it calls. -/
def MessageFromPrompt.reference (isPNG : GoString → Bool)
    (ConvertPNGToDataURI : GoString → GoString) (i : Nat) (ref : GoString)
    (messages : List Message) : Option (List Message) :=
  let i := i + 1
  if isPNG ref then
    let uri := ConvertPNGToDataURI ref
    some (messages ++ [Message.vision {
      Role := RoleUser,
      Content := [{ Type_ := str "image_url", ImageURL := { URL := uri } }] }])
  else
    some (messages ++ [Message.text {
      Role := RoleUser,
      Content := str "Reference " ++ fmtNat i ++ str ": " ++ ref }])

def MessageFromPrompt (isPNG : GoString → Bool) (ConvertPNGToDataURI : GoString → GoString)
    (prompt : Prompt) : Option (List Message) :=
  let messages : List Message := []
  let messages :=
    messages ++ [Message.text { Role := RoleSystem, Content := prompt.GetPurpose }]
  let givenInputs := prompt.GetHistory.1
  let idealOutputs := prompt.GetHistory.2
  match forRange (MessageFromPrompt.history idealOutputs) givenInputs 0 messages with
  | none => none
  | some messages =>
    let messages :=
      messages ++ [Message.text { Role := RoleUser, Content := prompt.GetQuestion }]
    let refs := prompt.GetReferences
    forRange (MessageFromPrompt.reference isPNG ConvertPNGToDataURI) refs 0 messages

/-- The two completion strategies `Do` chooses between. -/
inductive Strategy where
  | textCompletion
  | visionCompletion
  deriving DecidableEq, Repr

/-- The function a strategy value denotes. -/
def Strategy.run {κ : Type} (textCompletion visionCompletion : κ) : Strategy → κ
  | Strategy.textCompletion => textCompletion
  | Strategy.visionCompletion => visionCompletion

/-- The strategy selection of `Do`: the variable `strategy` after the loop over the
references. -/
def Do.strategy (isPNG : GoString → Bool) (refs : List GoString) : Strategy :=
  refs.foldl (fun strategy ref => if isPNG ref then Strategy.visionCompletion else strategy)
    Strategy.textCompletion

/-- The function `Do`; the two strategies are functions of the token, the model, the messages
and the response format. -/
def Do {τ ρ : Type} (isPNG : GoString → Bool) (ConvertPNGToDataURI : GoString → GoString)
    (textCompletion visionCompletion : GoString → τ → List Message → List GoString → ρ)
    (token : GoString) (model : τ) (prompt : Prompt) : Option ρ :=
  let format := prompt.GetResponseFormat
  let strategy := Do.strategy isPNG prompt.GetReferences
  match MessageFromPrompt isPNG ConvertPNGToDataURI prompt with
  | none => none
  | some messages =>
    some (strategy.run textCompletion visionCompletion token model messages format)

end openai

/-! ## Package `anthropic` (anthropic.go) -/

namespace anthropic

abbrev Role := GoString

/-- The interface `Prompt`, given by the values its four getters return. -/
structure Prompt where
  GetPurpose : GoString
  GetHistory : List GoString × List GoString
  GetQuestion : GoString
  GetReferences : List GoString

/-- The anonymous struct type of the field `Source` of `ImagePayload`. -/
structure ImageSource where
  Type_ : GoString
  MediaType : GoString
  Data : GoString
  deriving DecidableEq, Repr

structure ImagePayload where
  Type_ : GoString
  Source : ImageSource
  deriving DecidableEq, Repr

/-- The dynamic values stored in the field `Content any` of `Message`: a `string` or a
`[]ImagePayload`. -/
inductive Content where
  | text (s : GoString)
  | images (payloads : List ImagePayload)
  deriving DecidableEq, Repr

structure Message where
  Role : Role
  Content : Content
  deriving DecidableEq, Repr

def createImageContent (imageData : GoString) : ImagePayload :=
  { Type_ := str "image",
    Source := {
      Type_ := str "base64",
      MediaType := str "image/jpeg",
      Data := EncodeToString imageData } }

/-- The body of the history loop of `createAnthropicMessages`; `userInput` is
`userHistory[i]`. -/
def createAnthropicMessages.history (assistantHistory : List GoString) (i : Nat)
    (userInput : GoString) (messages : List Message) : Option (List Message) :=
  let messages := messages ++ [{ Role := str "user", Content := Content.text userInput }]
  match assistantHistory[i]? with
  | none => none
  | some output =>
    some (messages ++ [{ Role := str "assistant", Content := Content.text output }])

/-- The body of the reference loop of `createAnthropicMessages`; `isValidImage` is the
classifier built on `image.Decode`. -/
def createAnthropicMessages.reference (isValidImage : GoString → Bool) (_ : Nat)
    (ref : GoString) (messages : List Message) : Option (List Message) :=
  let isImage := isValidImage ref
  if !isImage then
    some (messages ++ [{ Role := str "user", Content := Content.text ref }])
  else
    let imagePayload := createImageContent ref
    some (messages ++ [{ Role := str "user", Content := Content.images [imagePayload] }])

def createAnthropicMessages (isValidImage : GoString → Bool) (prompt : Prompt) :
    Option (List Message) :=
  let messages : List Message := []
  let userHistory := prompt.GetHistory.1
  let assistantHistory := prompt.GetHistory.2
  match forRange (createAnthropicMessages.history assistantHistory) userHistory 0 messages with
  | none => none
  | some messages =>
    let messages :=
      messages ++ [{ Role := str "user", Content := Content.text prompt.GetQuestion }]
    forRange (createAnthropicMessages.reference isValidImage) prompt.GetReferences 0 messages

/-- The fields of `http.Response` the parser reads; `Body` is the bytes of the body. -/
structure Response where
  StatusCode : Int
  Status : GoString
  Body : GoString

structure ContentBlock where
  Text : GoString
  deriving DecidableEq, Repr

/-- The local struct `responseBody` of `parseAnthropicResponse`. -/
structure ResponseBody where
  Content : List ContentBlock
  deriving DecidableEq, Repr

/-- The function `parseAnthropicResponse`; `decode` stands for
`json.NewDecoder(resp.Body).Decode(&responseBody)`, and the reader returned,
`strings.NewReader(completion)`, is given by the string it reads. -/
def parseAnthropicResponse (decode : GoString → Except error ResponseBody) (resp : Response) :
    Except error GoString :=
  if resp.StatusCode ≠ 200 then
    Except.error (str "bad status code: " ++ fmtInt resp.StatusCode ++ str "; " ++ resp.Status)
  else
    match decode resp.Body with
    | Except.error err => Except.error (str "failed to decode response body: " ++ err)
    | Except.ok responseBody =>
      let completion : GoString :=
        responseBody.Content.foldl (fun completion message => completion ++ message.Text) []
      Except.ok completion

end anthropic

/-! ## Inputs used in the examples -/

/-- The prompt of the parity example: one prior exchange and no reference. -/
def parityPrompt : client.Prompt :=
  { GetPurpose := str "parity",
    GetHistory := ([str "2"], [str "even"]),
    GetQuestion := str "4",
    GetReferences := [] }

/-- A 1x1 PNG image (signature, IHDR, IDAT and IEND chunks). -/
def onePixelPNG : GoString :=
  [137, 80, 78, 71, 13, 10, 26, 10, 0, 0, 0, 13, 73, 72, 68, 82, 0, 0, 0, 1, 0, 0, 0, 1, 8, 6,
   0, 0, 0, 31, 21, 196, 137, 0, 0, 0, 13, 73, 68, 65, 84, 120, 218, 99, 100, 96, 248, 95, 15,
   0, 2, 135, 1, 128, 235, 71, 186, 146, 0, 0, 0, 0, 73, 69, 78, 68, 174, 66, 96, 130]

/-- A `client` prompt with the parity history and two references: one whose read fails with
the error "boom", followed by a readable one. -/
def unreadablePrompt : client.Prompt :=
  { GetPurpose := str "parity",
    GetHistory := ([str "2"], [str "even"]),
    GetQuestion := str "4",
    GetReferences := [⟨[], some (str "boom")⟩, ⟨str "notes", none⟩] }

/-- A classifier that accepts exactly the 1x1 PNG image. -/
def acceptsOnePixelPNG (ref : GoString) : Bool := decide (ref = onePixelPNG)

/-- A data-URI conversion used in the examples. -/
def sampleDataURI (ref : GoString) : GoString :=
  str "data:image/png;base64," ++ EncodeToString ref

/-- An `openai` prompt with the parity history, a text reference and the 1x1 PNG image. -/
def mixedPrompt : openai.Prompt :=
  { GetPurpose := str "parity",
    GetHistory := ([str "2"], [str "even"]),
    GetQuestion := str "4",
    GetReferences := [str "notes", onePixelPNG],
    GetResponseFormat := [] }

/-- The prompt `mixedPrompt` with its two references in the other order. -/
def swappedPrompt : openai.Prompt :=
  { GetPurpose := str "parity",
    GetHistory := ([str "2"], [str "even"]),
    GetQuestion := str "4",
    GetReferences := [onePixelPNG, str "notes"],
    GetResponseFormat := [] }

/-- The prompt `mixedPrompt` with its text reference alone. -/
def textOnlyPrompt : openai.Prompt :=
  { GetPurpose := str "parity",
    GetHistory := ([str "2"], [str "even"]),
    GetQuestion := str "4",
    GetReferences := [str "notes"],
    GetResponseFormat := [] }

/-- An `anthropic` prompt with the parity history, a text reference and the 1x1 PNG image. -/
def anthropicMixedPrompt : anthropic.Prompt :=
  { GetPurpose := str "parity",
    GetHistory := ([str "2"], [str "even"]),
    GetQuestion := str "4",
    GetReferences := [str "notes", onePixelPNG] }

/-- An `anthropic` prompt whose only reference is the 1x1 PNG image. -/
def pngPrompt : anthropic.Prompt :=
  { GetPurpose := str "describe",
    GetHistory := ([], []),
    GetQuestion := str "what is this?",
    GetReferences := [onePixelPNG] }

/-- An `anthropic` prompt whose only reference is the text "notes". -/
def notesPrompt : anthropic.Prompt :=
  { GetPurpose := str "describe",
    GetHistory := ([], []),
    GetQuestion := str "what is this?",
    GetReferences := [str "notes"] }

/-- A decoder that reads the body "\x7b"choices":[]\x7d" as the envelope without choices and
rejects every other body. -/
def decodeNoChoices (r : GoString) : Except error client.ChatCompletionResponse :=
  if r = str "\x7b\"choices\":[]\x7d" then Except.ok ⟨[]⟩
  else Except.error (str "unexpected end of JSON input")

/-- A decoder that reads every body as the envelope with the two choices "a" and "b". -/
def decodeTwoChoices (_ : GoString) : Except error client.ChatCompletionResponse :=
  Except.ok ⟨[⟨⟨str "assistant", str "a"⟩⟩, ⟨⟨str "assistant", str "b"⟩⟩]⟩

/-- A decoder that reads the body "\x7b"content":[]\x7d" as the envelope without content and
rejects every other body. -/
def decodeNoContent (r : GoString) : Except error anthropic.ResponseBody :=
  if r = str "\x7b\"content\":[]\x7d" then Except.ok ⟨[]⟩
  else Except.error (str "unexpected end of JSON input")

/-- A decoder that reads every body as the envelope with the two text blocks "a" and "b". -/
def decodeTwoBlocks (_ : GoString) : Except error anthropic.ResponseBody :=
  Except.ok ⟨[⟨str "a"⟩, ⟨str "b"⟩]⟩

/-- A response with status 200 and the body "\x7b"content":[]\x7d". -/
def emptyContentResponse : anthropic.Response :=
  { StatusCode := 200, Status := str "200 OK", Body := str "\x7b\"content\":[]\x7d" }

/-! ## The turns written by the two loops of each builder -/

namespace client

/-- The messages of the history loop: a user and an assistant message per prior exchange. -/
def historyTurns (givenInputs idealOutputs : List GoString) : List Message :=
  emit (fun i givenInput =>
    [(⟨RoleUser, givenInput⟩ : Message), ⟨RoleAssistant, (idealOutputs[i]?).getD []⟩])
    givenInputs 0

/-- The text of the message of the reference at 0-based index `i`. -/
def referenceText (i : Nat) (reference : Reader) : GoString :=
  str "Reference " ++ fmtNat (i + 1) ++ str ": " ++
    (match reference.err with
     | some e => str "Error reading reference: " ++ e
     | none => reference.data)

/-- The messages of the reference loop: one user message per reference. -/
def referenceTurns (references : List Reader) : List Message :=
  emit (fun i reference => [(⟨RoleUser, referenceText i reference⟩ : Message)]) references 0

end client

namespace openai

/-- The messages of the history loop: a user and an assistant message per prior exchange. -/
def historyTurns (givenInputs idealOutputs : List GoString) : List Message :=
  emit (fun i givenInput =>
    [Message.text ⟨RoleUser, givenInput⟩,
     Message.text ⟨RoleAssistant, (idealOutputs[i]?).getD []⟩])
    givenInputs 0

/-- The message of the reference at 0-based index `i`. -/
def referenceTurn (isPNG : GoString → Bool) (ConvertPNGToDataURI : GoString → GoString)
    (i : Nat) (ref : GoString) : Message :=
  if isPNG ref then
    Message.vision ⟨RoleUser, [⟨str "image_url", ⟨ConvertPNGToDataURI ref⟩⟩]⟩
  else
    Message.text ⟨RoleUser, str "Reference " ++ fmtNat (i + 1) ++ str ": " ++ ref⟩

/-- The messages of the reference loop: one user message per reference. -/
def referenceTurns (isPNG : GoString → Bool) (ConvertPNGToDataURI : GoString → GoString)
    (refs : List GoString) : List Message :=
  emit (fun i ref => [referenceTurn isPNG ConvertPNGToDataURI i ref]) refs 0

end openai

namespace anthropic

/-- The messages of the history loop: a user and an assistant message per prior exchange. -/
def historyTurns (userHistory assistantHistory : List GoString) : List Message :=
  emit (fun i userInput =>
    [(⟨str "user", Content.text userInput⟩ : Message),
     ⟨str "assistant", Content.text ((assistantHistory[i]?).getD [])⟩])
    userHistory 0

/-- The message of a reference. -/
def referenceTurn (isValidImage : GoString → Bool) (ref : GoString) : Message :=
  if isValidImage ref then
    ⟨str "user", Content.images [createImageContent ref]⟩
  else
    ⟨str "user", Content.text ref⟩

/-- The messages of the reference loop: one user message per reference. -/
def referenceTurns (isValidImage : GoString → Bool) (refs : List GoString) : List Message :=
  emit (fun _ ref => [referenceTurn isValidImage ref]) refs 0

end anthropic

/-! ## Loops that only append -/

namespace Go

/-- A loop whose `k`-th iteration appends `g k x` to the state ends with the state followed
by `emit g xs i`. -/
theorem forRange_emit {α μ : Type} (body : Nat → α → List μ → Option (List μ))
    (g : Nat → α → List μ) :
    ∀ (xs : List α) (i : Nat) (s : List μ),
      (∀ k x, xs[k]? = some x → ∀ t, body (i + k) x t = some (t ++ g (i + k) x)) →
      forRange body xs i s = some (s ++ emit g xs i)
  | [], _, s, _ => by simp [forRange, emit]
  | x :: xs, i, s, h => by
    have h0 := h 0 x (by simp) s
    simp only [Nat.add_zero] at h0
    have hrec := forRange_emit body g xs (i + 1) (s ++ g i x) (fun k y hy t => by
      have hk := h (k + 1) y (by simpa using hy) t
      have e : i + (k + 1) = i + 1 + k := by omega
      rw [e] at hk
      exact hk)
    simp only [forRange, h0, emit, hrec, List.append_assoc]

theorem emit_single_length {α μ : Type} (f : Nat → α → μ) :
    ∀ (xs : List α) (i : Nat), (emit (fun j x => [f j x]) xs i).length = xs.length
  | [], _ => rfl
  | _ :: xs, i => by simp [emit, emit_single_length f xs (i + 1)]

theorem emit_single_get {α μ : Type} (f : Nat → α → μ) :
    ∀ (xs : List α) (i k : Nat),
      (emit (fun j x => [f j x]) xs i)[k]? = (xs[k]?).map (f (i + k))
  | [], _, _ => by simp [emit]
  | x :: xs, i, 0 => by simp [emit]
  | x :: xs, i, k + 1 => by
    have e : i + 1 + k = i + (k + 1) := by omega
    simp [emit, emit_single_get f xs (i + 1) k, e]

theorem emit_pair_length {α μ : Type} (f h : Nat → α → μ) :
    ∀ (xs : List α) (i : Nat), (emit (fun j x => [f j x, h j x]) xs i).length = 2 * xs.length
  | [], _ => rfl
  | _ :: xs, i => by
    simp only [emit, List.length_append, emit_pair_length f h xs (i + 1), List.length_cons,
      List.length_nil]
    omega

theorem emit_pair_get_even {α μ : Type} (f h : Nat → α → μ) :
    ∀ (xs : List α) (i k : Nat),
      (emit (fun j x => [f j x, h j x]) xs i)[2 * k]? = (xs[k]?).map (f (i + k))
  | [], _, _ => by simp [emit]
  | x :: xs, i, 0 => by simp [emit]
  | x :: xs, i, k + 1 => by
    have e : i + 1 + k = i + (k + 1) := by omega
    have e2 : 2 * (k + 1) = 2 * k + 1 + 1 := by omega
    simp [emit, e2, emit_pair_get_even f h xs (i + 1) k, e]

theorem emit_pair_get_odd {α μ : Type} (f h : Nat → α → μ) :
    ∀ (xs : List α) (i k : Nat),
      (emit (fun j x => [f j x, h j x]) xs i)[2 * k + 1]? = (xs[k]?).map (h (i + k))
  | [], _, _ => by simp [emit]
  | x :: xs, i, 0 => by simp [emit]
  | x :: xs, i, k + 1 => by
    have e : i + 1 + k = i + (k + 1) := by omega
    have e2 : 2 * (k + 1) + 1 = 2 * k + 1 + 1 + 1 := by omega
    simp [emit, e2, emit_pair_get_odd f h xs (i + 1) k, e]

end Go

/-! ## Positions in a transcript `head ++ history ++ [question] ++ references` -/

namespace Go

theorem transcript_length {μ : Type} (a H R : List μ) (q : μ) :
    (a ++ H ++ [q] ++ R).length = a.length + H.length + 1 + R.length := by
  simp only [List.length_append, List.length_cons, List.length_nil]

theorem transcript_head {μ : Type} (a H R : List μ) (q : μ) (j : Nat) (hj : j < a.length) :
    (a ++ H ++ [q] ++ R)[j]? = a[j]? := by
  rw [List.append_assoc, List.append_assoc, List.getElem?_append_left hj]

theorem transcript_history {μ : Type} (a H R : List μ) (q : μ) (n j : Nat)
    (hn : a.length = n) (hj : j < H.length) :
    (a ++ H ++ [q] ++ R)[n + j]? = H[j]? := by
  subst hn
  rw [List.append_assoc, List.append_assoc, List.getElem?_append_right (by omega),
    List.getElem?_append_left (by omega)]
  congr 1
  omega

theorem transcript_question {μ : Type} (a H R : List μ) (q : μ) (n : Nat)
    (hn : a.length + H.length = n) :
    (a ++ H ++ [q] ++ R)[n]? = some q := by
  subst hn
  rw [List.append_assoc, List.append_assoc, List.getElem?_append_right (by omega),
    List.getElem?_append_right (by omega)]
  have e : a.length + H.length - a.length - H.length = 0 := by omega
  simp [e]

theorem transcript_reference {μ : Type} (a H R : List μ) (q : μ) (n k : Nat)
    (hn : a.length + H.length + 1 = n) :
    (a ++ H ++ [q] ++ R)[n + k]? = R[k]? := by
  subst hn
  have hlen : (a ++ H ++ [q]).length = a.length + H.length + 1 := by
    simp only [List.length_append, List.length_cons, List.length_nil]
  rw [List.getElem?_append_right (by omega), hlen]
  congr 1
  omega

end Go

/-! ## Closed forms of the three builders -/

section
open client

theorem client_history_eq (idealOutputs : List GoString) (i : Nat) (givenInput : GoString)
    (messages : List Message) (h : i < idealOutputs.length) :
    MessageFromPrompt.history idealOutputs i givenInput messages =
      some (messages ++
        [(⟨RoleUser, givenInput⟩ : Message), ⟨RoleAssistant, (idealOutputs[i]?).getD []⟩]) := by
  simp [MessageFromPrompt.history, List.getElem?_eq_getElem h]

theorem client_MessageFromPrompt_eq (prompt : Prompt)
    (h : prompt.GetHistory.1.length ≤ prompt.GetHistory.2.length) :
    MessageFromPrompt prompt =
      some ([(⟨RoleSystem, prompt.GetPurpose⟩ : Message)]
        ++ historyTurns prompt.GetHistory.1 prompt.GetHistory.2
        ++ [(⟨RoleUser, prompt.GetQuestion⟩ : Message)]
        ++ referenceTurns prompt.GetReferences) := by
  have h1 := forRange_emit (MessageFromPrompt.history prompt.GetHistory.2)
    (fun i givenInput =>
      [(⟨RoleUser, givenInput⟩ : Message), ⟨RoleAssistant, (prompt.GetHistory.2[i]?).getD []⟩])
    prompt.GetHistory.1 0 [(⟨RoleSystem, prompt.GetPurpose⟩ : Message)]
    (fun k x hk t => by
      have hlt : k < prompt.GetHistory.1.length := (List.getElem?_eq_some.1 hk).1
      exact client_history_eq _ _ _ _ (by omega))
  have h2 := fun s => forRange_emit MessageFromPrompt.reference
    (fun i reference => [(⟨RoleUser, referenceText i reference⟩ : Message)])
    prompt.GetReferences 0 s (fun k x _ t => rfl)
  simp only [MessageFromPrompt, List.nil_append, h1, h2, historyTurns, referenceTurns]

theorem client_historyTurns_length (givenInputs idealOutputs : List GoString) :
    (historyTurns givenInputs idealOutputs).length = 2 * givenInputs.length :=
  emit_pair_length _ _ _ _

theorem client_referenceTurns_length (references : List Reader) :
    (referenceTurns references).length = references.length :=
  emit_single_length _ _ _

end

section
open openai

theorem openai_history_eq (idealOutputs : List GoString) (i : Nat) (givenInput : GoString)
    (messages : List Message) (h : i < idealOutputs.length) :
    MessageFromPrompt.history idealOutputs i givenInput messages =
      some (messages ++
        [Message.text ⟨RoleUser, givenInput⟩,
         Message.text ⟨RoleAssistant, (idealOutputs[i]?).getD []⟩]) := by
  simp [MessageFromPrompt.history, List.getElem?_eq_getElem h]

theorem openai_reference_eq (isPNG : GoString → Bool) (ConvertPNGToDataURI : GoString → GoString)
    (i : Nat) (ref : GoString) (messages : List Message) :
    MessageFromPrompt.reference isPNG ConvertPNGToDataURI i ref messages =
      some (messages ++ [referenceTurn isPNG ConvertPNGToDataURI i ref]) := by
  unfold MessageFromPrompt.reference referenceTurn
  by_cases h : isPNG ref = true <;> simp [h]

theorem openai_MessageFromPrompt_eq (isPNG : GoString → Bool)
    (ConvertPNGToDataURI : GoString → GoString) (prompt : Prompt)
    (h : prompt.GetHistory.1.length ≤ prompt.GetHistory.2.length) :
    MessageFromPrompt isPNG ConvertPNGToDataURI prompt =
      some ([Message.text ⟨RoleSystem, prompt.GetPurpose⟩]
        ++ historyTurns prompt.GetHistory.1 prompt.GetHistory.2
        ++ [Message.text ⟨RoleUser, prompt.GetQuestion⟩]
        ++ referenceTurns isPNG ConvertPNGToDataURI prompt.GetReferences) := by
  have h1 := forRange_emit (MessageFromPrompt.history prompt.GetHistory.2)
    (fun i givenInput =>
      [Message.text ⟨RoleUser, givenInput⟩,
       Message.text ⟨RoleAssistant, (prompt.GetHistory.2[i]?).getD []⟩])
    prompt.GetHistory.1 0 [Message.text ⟨RoleSystem, prompt.GetPurpose⟩]
    (fun k x hk t => by
      have hlt : k < prompt.GetHistory.1.length := (List.getElem?_eq_some.1 hk).1
      exact openai_history_eq _ _ _ _ (by omega))
  have h2 := fun s => forRange_emit (MessageFromPrompt.reference isPNG ConvertPNGToDataURI)
    (fun i ref => [referenceTurn isPNG ConvertPNGToDataURI i ref])
    prompt.GetReferences 0 s (fun k x _ t => openai_reference_eq _ _ _ _ _)
  simp only [MessageFromPrompt, List.nil_append, h1, h2, historyTurns, referenceTurns]

theorem openai_historyTurns_length (givenInputs idealOutputs : List GoString) :
    (historyTurns givenInputs idealOutputs).length = 2 * givenInputs.length :=
  emit_pair_length _ _ _ _

theorem openai_referenceTurns_length (isPNG : GoString → Bool)
    (ConvertPNGToDataURI : GoString → GoString) (refs : List GoString) :
    (referenceTurns isPNG ConvertPNGToDataURI refs).length = refs.length :=
  emit_single_length _ _ _

end

section
open anthropic

theorem anthropic_history_eq (assistantHistory : List GoString) (i : Nat) (userInput : GoString)
    (messages : List Message) (h : i < assistantHistory.length) :
    createAnthropicMessages.history assistantHistory i userInput messages =
      some (messages ++
        [(⟨str "user", Content.text userInput⟩ : Message),
         ⟨str "assistant", Content.text ((assistantHistory[i]?).getD [])⟩]) := by
  simp [createAnthropicMessages.history, List.getElem?_eq_getElem h]

theorem anthropic_reference_eq (isValidImage : GoString → Bool) (i : Nat) (ref : GoString)
    (messages : List Message) :
    createAnthropicMessages.reference isValidImage i ref messages =
      some (messages ++ [referenceTurn isValidImage ref]) := by
  unfold createAnthropicMessages.reference referenceTurn
  by_cases h : isValidImage ref = true <;> simp [h]

theorem anthropic_createAnthropicMessages_eq (isValidImage : GoString → Bool) (prompt : Prompt)
    (h : prompt.GetHistory.1.length ≤ prompt.GetHistory.2.length) :
    createAnthropicMessages isValidImage prompt =
      some ([] ++ historyTurns prompt.GetHistory.1 prompt.GetHistory.2
        ++ [(⟨str "user", Content.text prompt.GetQuestion⟩ : Message)]
        ++ referenceTurns isValidImage prompt.GetReferences) := by
  have h1 := forRange_emit (createAnthropicMessages.history prompt.GetHistory.2)
    (fun i userInput =>
      [(⟨str "user", Content.text userInput⟩ : Message),
       ⟨str "assistant", Content.text ((prompt.GetHistory.2[i]?).getD [])⟩])
    prompt.GetHistory.1 0 []
    (fun k x hk t => by
      have hlt : k < prompt.GetHistory.1.length := (List.getElem?_eq_some.1 hk).1
      exact anthropic_history_eq _ _ _ _ (by omega))
  have h2 := fun s => forRange_emit (createAnthropicMessages.reference isValidImage)
    (fun _ ref => [referenceTurn isValidImage ref])
    prompt.GetReferences 0 s (fun k x _ t => anthropic_reference_eq _ _ _ _)
  simp only [createAnthropicMessages, h1, h2, historyTurns, referenceTurns]

theorem anthropic_historyTurns_length (userHistory assistantHistory : List GoString) :
    (historyTurns userHistory assistantHistory).length = 2 * userHistory.length :=
  emit_pair_length _ _ _ _

theorem anthropic_referenceTurns_length (isValidImage : GoString → Bool) (refs : List GoString) :
    (referenceTurns isValidImage refs).length = refs.length :=
  emit_single_length _ _ _

end

/-! ## Number of messages built -/

/-- C1: for a prompt whose two history slices both have length N and that carries R
references, `client.MessageFromPrompt` and `openai.MessageFromPrompt` return
1 + 2N + 1 + R messages and `createAnthropicMessages` returns 2N + 1 + R messages, whatever
the references contain and however they are classified. -/
theorem message_count :
    (∀ prompt : client.Prompt,
      prompt.GetHistory.1.length = prompt.GetHistory.2.length →
      ∃ messages, client.MessageFromPrompt prompt = some messages ∧
        messages.length =
          1 + 2 * prompt.GetHistory.1.length + 1 + prompt.GetReferences.length) ∧
    (∀ (isPNG : GoString → Bool) (ConvertPNGToDataURI : GoString → GoString)
      (prompt : openai.Prompt),
      prompt.GetHistory.1.length = prompt.GetHistory.2.length →
      ∃ messages, openai.MessageFromPrompt isPNG ConvertPNGToDataURI prompt = some messages ∧
        messages.length =
          1 + 2 * prompt.GetHistory.1.length + 1 + prompt.GetReferences.length) ∧
    (∀ (isValidImage : GoString → Bool) (prompt : anthropic.Prompt),
      prompt.GetHistory.1.length = prompt.GetHistory.2.length →
      ∃ messages, anthropic.createAnthropicMessages isValidImage prompt = some messages ∧
        messages.length = 2 * prompt.GetHistory.1.length + 1 + prompt.GetReferences.length) := by
  refine ⟨fun prompt h => ?_, fun isPNG conv prompt h => ?_, fun isValidImage prompt h => ?_⟩
  · refine ⟨_, client_MessageFromPrompt_eq prompt (by omega), ?_⟩
    rw [transcript_length, client_historyTurns_length, client_referenceTurns_length]
    simp
  · refine ⟨_, openai_MessageFromPrompt_eq isPNG conv prompt (by omega), ?_⟩
    rw [transcript_length, openai_historyTurns_length, openai_referenceTurns_length]
    simp
  · refine ⟨_, anthropic_createAnthropicMessages_eq isValidImage prompt (by omega), ?_⟩
    rw [transcript_length, anthropic_historyTurns_length, anthropic_referenceTurns_length]
    simp

/-- C1 at three prompts with one prior exchange and two references: an unreadable and a text
reference (`client`), a text reference and an image (`openai`, `anthropic`). -/
theorem message_count_witness :
    (∃ messages, client.MessageFromPrompt unreadablePrompt = some messages ∧
      messages.length = 6) ∧
    (∃ messages,
      openai.MessageFromPrompt acceptsOnePixelPNG sampleDataURI mixedPrompt = some messages ∧
      messages.length = 6) ∧
    (∃ messages,
      anthropic.createAnthropicMessages acceptsOnePixelPNG anthropicMixedPrompt =
        some messages ∧
      messages.length = 5) :=
  ⟨message_count.1 unreadablePrompt (by decide),
    message_count.2.1 acceptsOnePixelPNG sampleDataURI mixedPrompt (by decide),
    message_count.2.2 acceptsOnePixelPNG anthropicMixedPrompt (by decide)⟩

/-! ## Order of the transcript of `client.MessageFromPrompt` -/

section
open client

theorem client_historyTurns_user (givenInputs idealOutputs : List GoString) (i : Nat)
    (givenInput : GoString) (h : givenInputs[i]? = some givenInput) :
    (historyTurns givenInputs idealOutputs)[2 * i]? = some ⟨RoleUser, givenInput⟩ := by
  simp [historyTurns, emit_pair_get_even, h]

theorem client_historyTurns_assistant (givenInputs idealOutputs : List GoString) (i : Nat)
    (givenInput idealOutput : GoString) (h : givenInputs[i]? = some givenInput)
    (h2 : idealOutputs[i]? = some idealOutput) :
    (historyTurns givenInputs idealOutputs)[2 * i + 1]? = some ⟨RoleAssistant, idealOutput⟩ := by
  simp [historyTurns, emit_pair_get_odd, h, h2]

theorem client_referenceTurns_get (references : List Reader) (k : Nat) (reference : Reader)
    (h : references[k]? = some reference) :
    (referenceTurns references)[k]? = some ⟨RoleUser, referenceText k reference⟩ := by
  simp [referenceTurns, emit_single_get, h]

end

/-- C2: for a prompt with equal-length histories of length N, `client.MessageFromPrompt`
returns a transcript whose entry 0 is the system message with the purpose, whose entries
1+2i and 2+2i are the user message with the i-th input and the assistant message with the
i-th output, and whose entry 2N+1 is the user message with the question; the parity prompt
yields exactly system "parity", user "2", assistant "even", user "4". -/
theorem client_transcript_order (prompt : client.Prompt)
    (h : prompt.GetHistory.1.length = prompt.GetHistory.2.length) :
    (∃ messages, client.MessageFromPrompt prompt = some messages ∧
      messages[0]? = some ⟨client.RoleSystem, prompt.GetPurpose⟩ ∧
      (∀ i givenInput idealOutput,
        prompt.GetHistory.1[i]? = some givenInput →
        prompt.GetHistory.2[i]? = some idealOutput →
        messages[1 + 2 * i]? = some ⟨client.RoleUser, givenInput⟩ ∧
        messages[2 + 2 * i]? = some ⟨client.RoleAssistant, idealOutput⟩) ∧
      messages[2 * prompt.GetHistory.1.length + 1]? =
        some ⟨client.RoleUser, prompt.GetQuestion⟩) ∧
    client.MessageFromPrompt parityPrompt =
      some [⟨str "system", str "parity"⟩, ⟨str "user", str "2"⟩,
        ⟨str "assistant", str "even"⟩, ⟨str "user", str "4"⟩] := by
  refine ⟨⟨_, client_MessageFromPrompt_eq prompt (by omega), ?_, ?_, ?_⟩, by decide⟩
  · rw [transcript_head _ _ _ _ 0 (by simp)]
    rfl
  · intro i givenInput idealOutput hi ho
    have hlt : i < prompt.GetHistory.1.length := (List.getElem?_eq_some.1 hi).1
    have hlen := client_historyTurns_length prompt.GetHistory.1 prompt.GetHistory.2
    constructor
    · rw [transcript_history [(⟨client.RoleSystem, prompt.GetPurpose⟩ : client.Message)]
        _ _ _ 1 (2 * i) rfl (by omega)]
      exact client_historyTurns_user _ _ _ _ hi
    · have e : 2 + 2 * i = 1 + (2 * i + 1) := by omega
      rw [e, transcript_history [(⟨client.RoleSystem, prompt.GetPurpose⟩ : client.Message)]
        _ _ _ 1 (2 * i + 1) rfl (by omega)]
      exact client_historyTurns_assistant _ _ _ _ _ hi ho
  · exact transcript_question _ _ _ _ _ (by
      rw [client_historyTurns_length]
      simp only [List.length_cons, List.length_nil]
      omega)

/-- C2 at the prompt with the parity history and two references. -/
theorem client_transcript_order_witness :
    unreadablePrompt.GetHistory.1.length = unreadablePrompt.GetHistory.2.length ∧
    ((∃ messages, client.MessageFromPrompt unreadablePrompt = some messages ∧
      messages[0]? = some ⟨client.RoleSystem, unreadablePrompt.GetPurpose⟩ ∧
      (∀ i givenInput idealOutput,
        unreadablePrompt.GetHistory.1[i]? = some givenInput →
        unreadablePrompt.GetHistory.2[i]? = some idealOutput →
        messages[1 + 2 * i]? = some ⟨client.RoleUser, givenInput⟩ ∧
        messages[2 + 2 * i]? = some ⟨client.RoleAssistant, idealOutput⟩) ∧
      messages[2 * unreadablePrompt.GetHistory.1.length + 1]? =
        some ⟨client.RoleUser, unreadablePrompt.GetQuestion⟩) ∧
    client.MessageFromPrompt parityPrompt =
      some [⟨str "system", str "parity"⟩, ⟨str "user", str "2"⟩,
        ⟨str "assistant", str "even"⟩, ⟨str "user", str "4"⟩]) :=
  ⟨by decide, client_transcript_order unreadablePrompt (by decide)⟩

/-! ## Strategy selection in `openai.Do` -/

section
open openai

theorem openai_strategy_foldl (isPNG : GoString → Bool) :
    ∀ (refs : List GoString) (start : Strategy),
      refs.foldl (fun strategy ref => if isPNG ref then Strategy.visionCompletion else strategy)
        start = if refs.any isPNG then Strategy.visionCompletion else start
  | [], _ => by simp
  | ref :: refs, start => by
    rw [List.foldl_cons, openai_strategy_foldl isPNG refs]
    by_cases h : isPNG ref = true <;> simp [h]

theorem openai_strategy_eq (isPNG : GoString → Bool) (refs : List GoString) :
    Do.strategy isPNG refs =
      if refs.any isPNG then Strategy.visionCompletion else Strategy.textCompletion :=
  openai_strategy_foldl isPNG refs Strategy.textCompletion

theorem openai_Do_eq {τ ρ : Type} (isPNG : GoString → Bool)
    (ConvertPNGToDataURI : GoString → GoString)
    (textCompletion visionCompletion : GoString → τ → List Message → List GoString → ρ)
    (token : GoString) (model : τ) (prompt : Prompt) :
    Do isPNG ConvertPNGToDataURI textCompletion visionCompletion token model prompt =
      (MessageFromPrompt isPNG ConvertPNGToDataURI prompt).map (fun messages =>
        if prompt.GetReferences.any isPNG then
          visionCompletion token model messages prompt.GetResponseFormat
        else
          textCompletion token model messages prompt.GetResponseFormat) := by
  unfold Do
  simp only [openai_strategy_eq]
  cases MessageFromPrompt isPNG ConvertPNGToDataURI prompt with
  | none => rfl
  | some messages =>
    by_cases h : prompt.GetReferences.any isPNG = true
    · simp only [h, if_true, Option.map_some']
      rfl
    · simp only [h, Bool.false_eq_true, if_false, Option.map_some']
      rfl

theorem openai_any_perm (isPNG : GoString → Bool) (refs others : List GoString)
    (h : others.Perm refs) : others.any isPNG = refs.any isPNG := by
  rw [Bool.eq_iff_iff, List.any_eq_true, List.any_eq_true]
  constructor
  · rintro ⟨ref, hmem, href⟩
    exact ⟨ref, h.mem_iff.1 hmem, href⟩
  · rintro ⟨ref, hmem, href⟩
    exact ⟨ref, h.mem_iff.2 hmem, href⟩

theorem openai_any_false (isPNG : GoString → Bool) (refs : List GoString)
    (h : ∀ ref ∈ refs, isPNG ref = false) : refs.any isPNG = false := by
  cases hany : refs.any isPNG with
  | false => rfl
  | true =>
    obtain ⟨ref, hmem, href⟩ := List.any_eq_true.1 hany
    rw [h ref hmem] at href
    exact absurd href Bool.false_ne_true

end

/-- C3: `openai.Do` calls the vision strategy on the built messages when some reference of
the prompt is classified as an image by `isPNG`, and the text strategy when none is (in
particular when there is no reference); the strategy variable is `visionCompletion` exactly
in the first case and `textCompletion` exactly in the second; and for every prompt whose
references are a reordering of these references, `Do` calls the same strategy. -/
theorem do_strategy {τ ρ : Type} (isPNG : GoString → Bool)
    (ConvertPNGToDataURI : GoString → GoString)
    (textCompletion visionCompletion : GoString → τ → List openai.Message → List GoString → ρ)
    (token : GoString) (model : τ) (prompt : openai.Prompt) :
    ((∃ ref ∈ prompt.GetReferences, isPNG ref = true) →
      openai.Do isPNG ConvertPNGToDataURI textCompletion visionCompletion token model prompt =
        (openai.MessageFromPrompt isPNG ConvertPNGToDataURI prompt).map (fun messages =>
          visionCompletion token model messages prompt.GetResponseFormat)) ∧
    ((∀ ref ∈ prompt.GetReferences, isPNG ref = false) →
      openai.Do isPNG ConvertPNGToDataURI textCompletion visionCompletion token model prompt =
        (openai.MessageFromPrompt isPNG ConvertPNGToDataURI prompt).map (fun messages =>
          textCompletion token model messages prompt.GetResponseFormat)) ∧
    (prompt.GetReferences = [] →
      openai.Do isPNG ConvertPNGToDataURI textCompletion visionCompletion token model prompt =
        (openai.MessageFromPrompt isPNG ConvertPNGToDataURI prompt).map (fun messages =>
          textCompletion token model messages prompt.GetResponseFormat)) ∧
    (∀ other : openai.Prompt, other.GetReferences.Perm prompt.GetReferences →
      openai.Do isPNG ConvertPNGToDataURI textCompletion visionCompletion token model other =
        (openai.MessageFromPrompt isPNG ConvertPNGToDataURI other).map (fun messages =>
          if prompt.GetReferences.any isPNG then
            visionCompletion token model messages other.GetResponseFormat
          else
            textCompletion token model messages other.GetResponseFormat)) ∧
    (openai.Do.strategy isPNG prompt.GetReferences = openai.Strategy.visionCompletion ↔
      ∃ ref ∈ prompt.GetReferences, isPNG ref = true) ∧
    (openai.Do.strategy isPNG prompt.GetReferences = openai.Strategy.textCompletion ↔
      ∀ ref ∈ prompt.GetReferences, isPNG ref = false) ∧
    openai.Do.strategy isPNG [] = openai.Strategy.textCompletion ∧
    (∀ refs : List GoString, refs.Perm prompt.GetReferences →
      openai.Do.strategy isPNG refs = openai.Do.strategy isPNG prompt.GetReferences) := by
  refine ⟨?_, ?_, ?_, ?_, ?_, ?_, rfl, ?_⟩
  · intro hex
    rw [openai_Do_eq]
    simp only [List.any_eq_true.2 hex, if_true]
  · intro hall
    rw [openai_Do_eq]
    simp only [openai_any_false isPNG _ hall, Bool.false_eq_true, if_false]
  · intro hnil
    rw [openai_Do_eq]
    simp only [hnil, List.any_nil, Bool.false_eq_true, if_false]
  · intro other hperm
    rw [openai_Do_eq, openai_any_perm isPNG _ _ hperm]
  · rw [openai_strategy_eq]
    by_cases h : prompt.GetReferences.any isPNG = true
    · simp only [h, if_true, true_iff]
      exact List.any_eq_true.1 h
    · simp only [h, Bool.false_eq_true, if_false]
      constructor
      · intro hne
        cases hne
      · intro hex
        exact absurd (List.any_eq_true.2 hex) h
  · rw [openai_strategy_eq]
    by_cases h : prompt.GetReferences.any isPNG = true
    · simp only [h, if_true]
      constructor
      · intro hne
        cases hne
      · intro hall
        rw [openai_any_false isPNG _ hall] at h
        exact absurd h Bool.false_ne_true
    · simp only [h, Bool.false_eq_true, if_false, true_iff]
      intro ref hmem
      by_cases href : isPNG ref = true
      · exact absurd (List.any_eq_true.2 ⟨ref, hmem, href⟩) h
      · simpa using href
  · intro refs hperm
    rw [openai_strategy_eq, openai_strategy_eq, openai_any_perm isPNG _ _ hperm]

/-- C3 with a text strategy that returns `false` and a vision strategy that returns `true`:
`Do` returns the result of the vision strategy at the prompt with a text reference and an
image and at the prompt with these references in the other order, and the result of the text
strategy at the prompt with the text reference alone. -/
theorem do_strategy_witness :
    openai.Do acceptsOnePixelPNG sampleDataURI (fun _ (_ : Unit) _ _ => false)
      (fun _ _ _ _ => true) (str "token") () mixedPrompt = some true ∧
    openai.Do acceptsOnePixelPNG sampleDataURI (fun _ (_ : Unit) _ _ => false)
      (fun _ _ _ _ => true) (str "token") () swappedPrompt = some true ∧
    openai.Do acceptsOnePixelPNG sampleDataURI (fun _ (_ : Unit) _ _ => false)
      (fun _ _ _ _ => true) (str "token") () textOnlyPrompt = some false :=
  ⟨((do_strategy acceptsOnePixelPNG sampleDataURI (fun _ (_ : Unit) _ _ => false)
      (fun _ _ _ _ => true) (str "token") () mixedPrompt).1
      ⟨onePixelPNG, by decide, by decide⟩).trans (by decide),
    ((do_strategy acceptsOnePixelPNG sampleDataURI (fun _ (_ : Unit) _ _ => false)
      (fun _ _ _ _ => true) (str "token") () mixedPrompt).2.2.2.1 swappedPrompt
      (List.Perm.swap _ _ [])).trans (by decide),
    ((do_strategy acceptsOnePixelPNG sampleDataURI (fun _ (_ : Unit) _ _ => false)
      (fun _ _ _ _ => true) (str "token") () textOnlyPrompt).2.1
      (by decide)).trans (by decide)⟩

/-! ## Text references in `client.MessageFromPrompt` and `openai.MessageFromPrompt` -/

section
open openai

theorem openai_referenceTurns_get (isPNG : GoString → Bool)
    (ConvertPNGToDataURI : GoString → GoString) (refs : List GoString) (k : Nat)
    (ref : GoString) (h : refs[k]? = some ref) :
    (referenceTurns isPNG ConvertPNGToDataURI refs)[k]? =
      some (referenceTurn isPNG ConvertPNGToDataURI k ref) := by
  simp [referenceTurns, emit_single_get, h]

end

/-- C4: for a prompt with equal-length histories of length N and every k with
1 ≤ k ≤ R, if the k-th reference is readable (`client`) and is not classified as an image
(`openai`), then the message at position 2N+1+k is the user message with the text
"Reference k: " followed by the bytes of the reference; the label is the 1-based position of
the reference among the references. -/
theorem reference_text_message :
    (∀ (prompt : client.Prompt) (k : Nat) (reference : Reader),
      prompt.GetHistory.1.length = prompt.GetHistory.2.length →
      1 ≤ k →
      prompt.GetReferences[k - 1]? = some reference →
      reference.err = none →
      ∃ messages, client.MessageFromPrompt prompt = some messages ∧
        messages[2 * prompt.GetHistory.1.length + 1 + k]? =
          some ⟨client.RoleUser, str "Reference " ++ fmtNat k ++ str ": " ++ reference.data⟩) ∧
    (∀ (isPNG : GoString → Bool) (ConvertPNGToDataURI : GoString → GoString)
      (prompt : openai.Prompt) (k : Nat) (ref : GoString),
      prompt.GetHistory.1.length = prompt.GetHistory.2.length →
      1 ≤ k →
      prompt.GetReferences[k - 1]? = some ref →
      isPNG ref = false →
      ∃ messages, openai.MessageFromPrompt isPNG ConvertPNGToDataURI prompt = some messages ∧
        messages[2 * prompt.GetHistory.1.length + 1 + k]? =
          some (openai.Message.text
            ⟨openai.RoleUser, str "Reference " ++ fmtNat k ++ str ": " ++ ref⟩)) := by
  constructor
  · intro prompt k reference h hk href herr
    refine ⟨_, client_MessageFromPrompt_eq prompt (by omega), ?_⟩
    obtain ⟨j, rfl⟩ : ∃ j, k = j + 1 := ⟨k - 1, by omega⟩
    simp only [Nat.add_sub_cancel] at href
    have e : 2 * prompt.GetHistory.1.length + 1 + (j + 1) =
        2 * prompt.GetHistory.1.length + 2 + j := by omega
    rw [e, transcript_reference _ _ _ _ _ j (by
      rw [client_historyTurns_length]
      simp only [List.length_cons, List.length_nil]
      omega)]
    rw [client_referenceTurns_get _ _ _ href]
    simp [client.referenceText, herr]
  · intro isPNG conv prompt k ref h hk href hpng
    refine ⟨_, openai_MessageFromPrompt_eq isPNG conv prompt (by omega), ?_⟩
    obtain ⟨j, rfl⟩ : ∃ j, k = j + 1 := ⟨k - 1, by omega⟩
    simp only [Nat.add_sub_cancel] at href
    have e : 2 * prompt.GetHistory.1.length + 1 + (j + 1) =
        2 * prompt.GetHistory.1.length + 2 + j := by omega
    rw [e, transcript_reference _ _ _ _ _ j (by
      rw [openai_historyTurns_length]
      simp only [List.length_cons, List.length_nil]
      omega)]
    rw [openai_referenceTurns_get _ _ _ _ _ href]
    simp [openai.referenceTurn, hpng]

/-- C4 at the readable second reference of a `client` prompt and at the text reference that
comes first in an `openai` prompt, both after one prior exchange. -/
theorem reference_text_message_witness :
    (∃ messages, client.MessageFromPrompt unreadablePrompt = some messages ∧
      messages[2 * unreadablePrompt.GetHistory.1.length + 1 + 2]? =
        some ⟨client.RoleUser, str "Reference " ++ fmtNat 2 ++ str ": " ++ str "notes"⟩) ∧
    (∃ messages,
      openai.MessageFromPrompt acceptsOnePixelPNG sampleDataURI mixedPrompt = some messages ∧
      messages[2 * mixedPrompt.GetHistory.1.length + 1 + 1]? =
        some (openai.Message.text
          ⟨openai.RoleUser, str "Reference " ++ fmtNat 1 ++ str ": " ++ str "notes"⟩)) :=
  ⟨reference_text_message.1 unreadablePrompt 2 ⟨str "notes", none⟩ (by decide) (by decide)
      (by decide) rfl,
    reference_text_message.2 acceptsOnePixelPNG sampleDataURI mixedPrompt 1 (str "notes")
      (by decide) (by decide) (by decide) (by decide)⟩

/-! ## References in `createAnthropicMessages` -/

section
open anthropic

theorem anthropic_referenceTurns_get (isValidImage : GoString → Bool) (refs : List GoString) (k : Nat)
    (ref : GoString) (h : refs[k]? = some ref) :
    (referenceTurns isValidImage refs)[k]? = some (referenceTurn isValidImage ref) := by
  simp [referenceTurns, emit_single_get, h]

theorem anthropic_reference_message (isValidImage : GoString → Bool) (prompt : Prompt) (k : Nat)
    (ref : GoString) (h : prompt.GetHistory.1.length = prompt.GetHistory.2.length)
    (href : prompt.GetReferences[k]? = some ref) :
    ∃ messages, createAnthropicMessages isValidImage prompt = some messages ∧
      messages.length = 2 * prompt.GetHistory.1.length + 1 + prompt.GetReferences.length ∧
      messages[2 * prompt.GetHistory.1.length]? =
        some ⟨str "user", Content.text prompt.GetQuestion⟩ ∧
      messages[2 * prompt.GetHistory.1.length + 1 + k]? =
        some (referenceTurn isValidImage ref) := by
  refine ⟨_, anthropic_createAnthropicMessages_eq isValidImage prompt (by omega), ?_, ?_, ?_⟩
  · rw [transcript_length, anthropic_historyTurns_length, anthropic_referenceTurns_length]
    simp
  · exact transcript_question _ _ _ _ _ (by rw [anthropic_historyTurns_length]; simp)
  · rw [transcript_reference _ _ _ _ _ k (by rw [anthropic_historyTurns_length]; simp)]
    exact anthropic_referenceTurns_get _ _ _ _ href

end

/-- C5, the code on each reference: in `createAnthropicMessages`, for the reference at 1-based
position k of a prompt with equal-length histories of length N, the message at position 2N+k
is a user message; if the classifier accepts the reference its content is a single image
block of type "image" whose source has type "base64" and as data the standard base64 encoding
of the reference bytes; if the classifier rejects it its content is the text made of the
bytes of the reference alone, which is not the labelled text "Reference k: " followed by
these bytes that `client.MessageFromPrompt` and `openai.MessageFromPrompt` emit. -/
theorem anthropic_reference_content (isValidImage : GoString → Bool)
    (prompt : anthropic.Prompt) (k : Nat) (ref : GoString)
    (h : prompt.GetHistory.1.length = prompt.GetHistory.2.length) (hk : 1 ≤ k)
    (href : prompt.GetReferences[k - 1]? = some ref) :
    ∃ messages, anthropic.createAnthropicMessages isValidImage prompt = some messages ∧
      (isValidImage ref = true →
        ∃ payload : anthropic.ImagePayload,
          messages[2 * prompt.GetHistory.1.length + k]? =
            some ⟨str "user", anthropic.Content.images [payload]⟩ ∧
          payload.Type_ = str "image" ∧
          payload.Source.Type_ = str "base64" ∧
          payload.Source.Data = EncodeToString ref) ∧
      (isValidImage ref = false →
        messages[2 * prompt.GetHistory.1.length + k]? =
          some ⟨str "user", anthropic.Content.text ref⟩ ∧
        messages[2 * prompt.GetHistory.1.length + k]? ≠
          some ⟨str "user",
            anthropic.Content.text (str "Reference " ++ fmtNat k ++ str ": " ++ ref)⟩) := by
  obtain ⟨j, rfl⟩ : ∃ j, k = j + 1 := ⟨k - 1, by omega⟩
  simp only [Nat.add_sub_cancel] at href
  obtain ⟨messages, hm, -, -, hget⟩ := anthropic_reference_message isValidImage prompt j ref h href
  have e : 2 * prompt.GetHistory.1.length + (j + 1) =
      2 * prompt.GetHistory.1.length + 1 + j := by omega
  refine ⟨messages, hm, fun hv => ?_, fun hv => ?_⟩
  · refine ⟨anthropic.createImageContent ref, ?_, rfl, rfl, rfl⟩
    rw [e, hget]
    simp [anthropic.referenceTurn, hv]
  · have htext : messages[2 * prompt.GetHistory.1.length + (j + 1)]? =
        some ⟨str "user", anthropic.Content.text ref⟩ := by
      rw [e, hget]
      simp [anthropic.referenceTurn, hv]
    refine ⟨htext, fun hlabel => ?_⟩
    rw [htext] at hlabel
    have hcontent := congrArg anthropic.Message.Content (Option.some.inj hlabel)
    have hbytes : ref = str "Reference " ++ fmtNat (j + 1) ++ str ": " ++ ref :=
      anthropic.Content.text.inj hcontent
    have hlen := congrArg List.length hbytes
    have h10 : (str "Reference ").length = 10 := by decide
    simp only [List.length_append, h10] at hlen
    omega

/-- C5, the code at the prompt whose only reference is the text "notes", which the classifier
rejects: the transcript is the question followed by the user message with the text "notes",
not "Reference 1: notes". -/
theorem anthropic_reference_content_witness :
    (∃ messages, anthropic.createAnthropicMessages acceptsOnePixelPNG notesPrompt =
        some messages ∧
      (acceptsOnePixelPNG (str "notes") = true →
        ∃ payload : anthropic.ImagePayload,
          messages[2 * notesPrompt.GetHistory.1.length + 1]? =
            some ⟨str "user", anthropic.Content.images [payload]⟩ ∧
          payload.Type_ = str "image" ∧
          payload.Source.Type_ = str "base64" ∧
          payload.Source.Data = EncodeToString (str "notes")) ∧
      (acceptsOnePixelPNG (str "notes") = false →
        messages[2 * notesPrompt.GetHistory.1.length + 1]? =
          some ⟨str "user", anthropic.Content.text (str "notes")⟩ ∧
        messages[2 * notesPrompt.GetHistory.1.length + 1]? ≠
          some ⟨str "user",
            anthropic.Content.text (str "Reference " ++ fmtNat 1 ++ str ": " ++ str "notes")⟩)) ∧
    acceptsOnePixelPNG (str "notes") = false ∧
    anthropic.createAnthropicMessages acceptsOnePixelPNG notesPrompt =
      some [⟨str "user", anthropic.Content.text (str "what is this?")⟩,
        ⟨str "user", anthropic.Content.text (str "notes")⟩] :=
  ⟨anthropic_reference_content acceptsOnePixelPNG notesPrompt 1 (str "notes")
      (by decide) (by decide) (by decide),
    by decide, by decide⟩

/-- C6, the code at a prompt whose only reference is accepted by the classifier: after the
history, `createAnthropicMessages` emits the question and exactly one more user message,
which carries a single image block; the media type of that block is "image/jpeg", which is
not "image/png". -/
theorem anthropic_image_media_type (isValidImage : GoString → Bool)
    (prompt : anthropic.Prompt) (ref : GoString)
    (h : prompt.GetHistory.1.length = prompt.GetHistory.2.length)
    (href : prompt.GetReferences = [ref]) (hv : isValidImage ref = true) :
    ∃ messages payload, anthropic.createAnthropicMessages isValidImage prompt = some messages ∧
      messages.length = 2 * prompt.GetHistory.1.length + 2 ∧
      messages[2 * prompt.GetHistory.1.length]? =
        some ⟨str "user", anthropic.Content.text prompt.GetQuestion⟩ ∧
      messages[2 * prompt.GetHistory.1.length + 1]? =
        some ⟨str "user", anthropic.Content.images [payload]⟩ ∧
      payload.Source.MediaType = str "image/jpeg" ∧
      payload.Source.MediaType ≠ str "image/png" := by
  obtain ⟨messages, hm, hlen, hq, hget⟩ :=
    anthropic_reference_message isValidImage prompt 0 ref h (by rw [href]; rfl)
  have hne : str "image/jpeg" ≠ str "image/png" := by decide
  refine ⟨messages, anthropic.createImageContent ref, hm, ?_, hq, ?_, rfl, hne⟩
  · rw [hlen, href]
    rfl
  · rw [← Nat.add_zero (2 * prompt.GetHistory.1.length + 1), hget]
    simp [anthropic.referenceTurn, hv]

/-- C6, the code at the prompt whose only reference is the 1x1 PNG image. -/
theorem anthropic_image_media_type_witness :
    ∃ messages payload,
      anthropic.createAnthropicMessages acceptsOnePixelPNG pngPrompt = some messages ∧
      messages.length = 2 * pngPrompt.GetHistory.1.length + 2 ∧
      messages[2 * pngPrompt.GetHistory.1.length]? =
        some ⟨str "user", anthropic.Content.text pngPrompt.GetQuestion⟩ ∧
      messages[2 * pngPrompt.GetHistory.1.length + 1]? =
        some ⟨str "user", anthropic.Content.images [payload]⟩ ∧
      payload.Source.MediaType = str "image/jpeg" ∧
      payload.Source.MediaType ≠ str "image/png" :=
  anthropic_image_media_type acceptsOnePixelPNG pngPrompt onePixelPNG (by decide) rfl
    (by decide)

/-! ## Unreadable references in `client.MessageFromPrompt` -/

section
open client

theorem client_referenceTurns_set_ne (references : List Reader) (k i : Nat) (reference : Reader)
    (h : i ≠ k) :
    (referenceTurns (references.set k reference))[i]? = (referenceTurns references)[i]? := by
  simp only [referenceTurns, emit_single_get, List.getElem?_set_ne (Ne.symm h)]

end

/-- C7, the claim at a concrete input: for the prompt whose first reference fails with the
error "boom", the message emitted for that reference has the text
"Reference 1: Error reading reference: boom", and no message of the transcript starts with
"Error reading reference:". -/
theorem unreadable_reference_is_labelled :
    ∃ messages, client.MessageFromPrompt unreadablePrompt = some messages ∧
      messages[4]? =
        some ⟨client.RoleUser, str "Reference 1: Error reading reference: boom"⟩ ∧
      ∀ message ∈ messages, ¬ (str "Error reading reference:" <+: message.Content) :=
  ⟨[⟨str "system", str "parity"⟩, ⟨str "user", str "2"⟩, ⟨str "assistant", str "even"⟩,
    ⟨str "user", str "4"⟩, ⟨str "user", str "Reference 1: Error reading reference: boom"⟩,
    ⟨str "user", str "Reference 2: notes"⟩], by decide, by decide, by decide⟩

/-- C7 as amended: in `client.MessageFromPrompt`, for a prompt with equal-length histories of
length N and R references whose reference at 0-based index k fails to read with cause `e`,
the build returns all 1 + 2N + 1 + R messages; the message emitted for that reference is the
user message with the text "Reference k+1: Error reading reference: " followed by `e`; and
every other message, in particular that of every later reference, is the one built when the
failing reference is replaced by any other reader. -/
theorem unreadable_reference_message (prompt : client.Prompt) (k : Nat)
    (reference other : Reader) (e : error)
    (h : prompt.GetHistory.1.length = prompt.GetHistory.2.length)
    (href : prompt.GetReferences[k]? = some reference) (herr : reference.err = some e) :
    ∃ messages, client.MessageFromPrompt prompt = some messages ∧
      messages.length =
        1 + 2 * prompt.GetHistory.1.length + 1 + prompt.GetReferences.length ∧
      messages[2 * prompt.GetHistory.1.length + 2 + k]? =
        some ⟨client.RoleUser,
          str "Reference " ++ fmtNat (k + 1) ++ str ": " ++
            (str "Error reading reference: " ++ e)⟩ ∧
      ∃ others,
        client.MessageFromPrompt
          { prompt with GetReferences := prompt.GetReferences.set k other } = some others ∧
        others.length = messages.length ∧
        ∀ j, j ≠ 2 * prompt.GetHistory.1.length + 2 + k → others[j]? = messages[j]? := by
  have hH := client_historyTurns_length prompt.GetHistory.1 prompt.GetHistory.2
  have hn : [(⟨client.RoleSystem, prompt.GetPurpose⟩ : client.Message)].length +
      (client.historyTurns prompt.GetHistory.1 prompt.GetHistory.2).length + 1 =
      2 * prompt.GetHistory.1.length + 2 := by
    rw [hH]
    simp only [List.length_cons, List.length_nil]
    omega
  refine ⟨_, client_MessageFromPrompt_eq prompt (by omega), ?_, ?_, _,
    client_MessageFromPrompt_eq { prompt with GetReferences := prompt.GetReferences.set k other }
      (by simp only; omega), ?_, ?_⟩
  · rw [transcript_length, hH, client_referenceTurns_length]
    simp
  · rw [transcript_reference _ _ _ _ _ k hn, client_referenceTurns_get _ _ _ href]
    simp [client.referenceText, herr]
  · simp only [transcript_length, client_referenceTurns_length, List.length_set]
  · intro j hj
    simp only
    by_cases hlt : j < 2 * prompt.GetHistory.1.length + 2
    · have hl : j < ([(⟨client.RoleSystem, prompt.GetPurpose⟩ : client.Message)] ++
          client.historyTurns prompt.GetHistory.1 prompt.GetHistory.2 ++
          [(⟨client.RoleUser, prompt.GetQuestion⟩ : client.Message)]).length := by
        simp only [List.length_append, List.length_cons, List.length_nil] at hn ⊢
        omega
      rw [List.getElem?_append_left hl, List.getElem?_append_left hl]
    · obtain ⟨i, rfl⟩ : ∃ i, j = 2 * prompt.GetHistory.1.length + 2 + i :=
        ⟨j - (2 * prompt.GetHistory.1.length + 2), by omega⟩
      rw [transcript_reference _ _ _ _ _ i hn, transcript_reference _ _ _ _ _ i hn]
      exact client_referenceTurns_set_ne _ _ _ _ (by omega)

/-- C7 as amended, at the prompt whose first reference fails with the error "boom". -/
theorem unreadable_reference_message_witness :
    ∃ messages, client.MessageFromPrompt unreadablePrompt = some messages ∧
      messages.length =
        1 + 2 * unreadablePrompt.GetHistory.1.length + 1 +
          unreadablePrompt.GetReferences.length ∧
      messages[2 * unreadablePrompt.GetHistory.1.length + 2 + 0]? =
        some ⟨client.RoleUser,
          str "Reference " ++ fmtNat (0 + 1) ++ str ": " ++
            (str "Error reading reference: " ++ str "boom")⟩ ∧
      ∃ others,
        client.MessageFromPrompt
          { unreadablePrompt with
            GetReferences := unreadablePrompt.GetReferences.set 0 ⟨str "fine", none⟩ } =
          some others ∧
        others.length = messages.length ∧
        ∀ j, j ≠ 2 * unreadablePrompt.GetHistory.1.length + 2 + 0 →
          others[j]? = messages[j]? :=
  unreadable_reference_message unreadablePrompt 0 ⟨[], some (str "boom")⟩ ⟨str "fine", none⟩
    (str "boom") (by decide) (by decide) rfl

/-! ## Response parsers -/

/-- C8: when the body decodes to an envelope without choices, `client.ParseResponse` fails
with the error "no choices returned" and returns no successful result; when the body decodes
to an envelope with at least one choice, `client.ParseResponse` succeeds. -/
theorem parse_response_choices
    (decode : GoString → Except error client.ChatCompletionResponse) (r : GoString)
    (resp : client.ChatCompletionResponse) (h : decode r = Except.ok resp) :
    (resp.Choices.length = 0 →
      client.ParseResponse decode r = Except.error (str "no choices returned") ∧
      ∀ s, client.ParseResponse decode r ≠ Except.ok s) ∧
    (1 ≤ resp.Choices.length → ∃ s, client.ParseResponse decode r = Except.ok s) := by
  constructor
  · intro h0
    have hp : client.ParseResponse decode r = Except.error (str "no choices returned") := by
      simp [client.ParseResponse, h, h0]
    refine ⟨hp, fun s hs => ?_⟩
    rw [hp] at hs
    cases hs
  · intro h1
    have hn : ¬ resp.Choices.length < 1 := by omega
    simp only [client.ParseResponse, h, hn, dite_false]
    exact ⟨_, rfl⟩

/-- C8 at the body "\x7b"choices":[]\x7d", which decodes to the envelope without choices. -/
theorem parse_response_choices_witness :
    decodeNoChoices (str "\x7b\"choices\":[]\x7d") = Except.ok ⟨[]⟩ ∧
    client.ParseResponse decodeNoChoices (str "\x7b\"choices\":[]\x7d") =
      Except.error (str "no choices returned") ∧
    ∀ s, client.ParseResponse decodeNoChoices (str "\x7b\"choices\":[]\x7d") ≠ Except.ok s :=
  ⟨if_pos rfl,
    (parse_response_choices decodeNoChoices (str "\x7b\"choices\":[]\x7d") ⟨[]⟩
      (if_pos rfl)).1 rfl⟩

/-- C9, the code on an empty content list: for every response with status 200 whose body
decodes to an envelope with an empty content list, `parseAnthropicResponse` returns the
reader over the empty string and no error; the test for an empty list that
`client.ParseResponse` makes before it reads the first choice has no counterpart here. -/
theorem anthropic_empty_content (decode : GoString → Except error anthropic.ResponseBody)
    (resp : anthropic.Response) (body : anthropic.ResponseBody)
    (hs : resp.StatusCode = 200) (hd : decode resp.Body = Except.ok body)
    (he : body.Content = []) :
    anthropic.parseAnthropicResponse decode resp = Except.ok (str "") ∧
    ∀ err, anthropic.parseAnthropicResponse decode resp ≠ Except.error err := by
  have hp : anthropic.parseAnthropicResponse decode resp = Except.ok (str "") := by
    simp [anthropic.parseAnthropicResponse, hs, hd, he]
    rfl
  refine ⟨hp, fun err herr => ?_⟩
  rw [hp] at herr
  cases herr

/-- C9, the code at the response with status 200 and body "\x7b"content":[]\x7d". -/
theorem anthropic_empty_content_witness :
    emptyContentResponse.StatusCode = 200 ∧
    decodeNoContent emptyContentResponse.Body = Except.ok ⟨[]⟩ ∧
    anthropic.parseAnthropicResponse decodeNoContent emptyContentResponse =
      Except.ok (str "") ∧
    ∀ err, anthropic.parseAnthropicResponse decodeNoContent emptyContentResponse ≠
      Except.error err :=
  ⟨rfl, if_pos rfl,
    anthropic_empty_content decodeNoContent emptyContentResponse ⟨[]⟩ rfl (if_pos rfl) rfl⟩

section
open anthropic

theorem anthropic_completion_foldl :
    ∀ (blocks : List ContentBlock) (start : GoString),
      blocks.foldl (fun completion message => completion ++ message.Text) start =
        start ++ (blocks.map (fun message => message.Text)).flatten
  | [], start => by simp
  | block :: blocks, start => by
    rw [List.foldl_cons, anthropic_completion_foldl blocks, List.map_cons, List.flatten_cons,
      List.append_assoc]

end

/-- C10, the claim at a concrete input: for the envelope with the two choices "a" and "b",
`client.ParseResponse` returns "a", which is not the concatenation "ab". -/
theorem parse_response_first_choice_only :
    client.ParseResponse decodeTwoChoices (str "") = Except.ok (str "a") ∧
    client.ParseResponse decodeTwoChoices (str "") ≠ Except.ok (str "a" ++ str "b") := by
  have hp : client.ParseResponse decodeTwoChoices (str "") = Except.ok (str "a") := rfl
  refine ⟨hp, fun h => ?_⟩
  rw [hp] at h
  have hab : str "a" = str "a" ++ str "b" := Except.ok.inj h
  exact absurd hab (by decide)

/-- C10 as amended: for every envelope that decodes with a non-empty list of choices
c_1..c_n, `client.ParseResponse` returns the content of the first choice c_1 alone; for every
response with status 200 whose body decodes to the content blocks b_1..b_n,
`parseAnthropicResponse` returns the concatenation of the texts of all blocks in list
order. -/
theorem parse_response_result :
    (∀ (decode : GoString → Except error client.ChatCompletionResponse) (r : GoString)
      (resp : client.ChatCompletionResponse) (c : client.Choice) (cs : List client.Choice),
      decode r = Except.ok resp → resp.Choices = c :: cs →
      client.ParseResponse decode r = Except.ok c.Message.Content) ∧
    (∀ (decode : GoString → Except error anthropic.ResponseBody) (resp : anthropic.Response)
      (body : anthropic.ResponseBody),
      resp.StatusCode = 200 → decode resp.Body = Except.ok body →
      anthropic.parseAnthropicResponse decode resp =
        Except.ok (body.Content.map (fun block => block.Text)).flatten) := by
  constructor
  · intro decode r resp c cs hd hc
    simp [client.ParseResponse, hd, hc]
  · intro decode resp body hs hd
    simp [anthropic.parseAnthropicResponse, hs, hd, anthropic_completion_foldl]

/-- C10 as amended, at the envelopes with the two choices and the two text blocks "a" and
"b". -/
theorem parse_response_result_witness :
    client.ParseResponse decodeTwoChoices (str "") = Except.ok (str "a") ∧
    anthropic.parseAnthropicResponse decodeTwoBlocks emptyContentResponse =
      Except.ok ([str "a", str "b"].flatten) :=
  ⟨parse_response_result.1 decodeTwoChoices (str "") _ ⟨⟨str "assistant", str "a"⟩⟩
      [⟨⟨str "assistant", str "b"⟩⟩] rfl rfl,
    parse_response_result.2 decodeTwoBlocks emptyContentResponse _ rfl rfl⟩
